import Mathlib

/-!
Shallow embedding of `pip_ensure_version/pip_ensure_version.py` (the module
described by the design document): the status enumeration, the package /
direct-url data model read from pip metadata, the inline pin-string parse
(the regex search for an operator run followed by a digits-and-dots run),
the version-satisfaction check, and the two orchestrators
`require_package` / `require_gitpackage` together with the subprocess
install step.

External effects are passed in explicitly:
  * the environment lookup result (`_get_package`) is the `package`
    argument, an optional installed distribution;
  * the pip-vendored `Version` constructor is the `vparse` argument, a
    fallible parse into an arbitrary linearly ordered version type;
  * the install subprocess outcome is the `install_succeeds` flag.
Every function returns the Python result as `Except PyError result`
(exceptions become `Except.error`) paired with the list of requirement
strings handed to the install subprocess, in order, so that theorems can
speak about which installer calls were made.
-/

namespace PipEnsureVersion

/-- The `PipPackageStatus` enumeration of the source, member for member. -/
inductive PipPackageStatus
  | UpToDate
  | OutDated
  | NotVcsPackage
  | NotGitPackage
  | Found
  | NotFound
  | Failed
deriving DecidableEq, Repr

/-- The exceptions the module can raise: Python `ValueError` (from the pin
check or from the vendored `Version` constructor) and the module's own
`PipAutoInstallError`. -/
inductive PyError
  | valueError (msg : String)
  | pipAutoInstallError (msg : String)
deriving DecidableEq, Repr

/-- The part of a pip `direct_url.info` record the module inspects: either a
`VcsInfo` (vcs kind and resolved commit id) or any non-VCS info record
(archive / local directory), which the `isinstance(_, VcsInfo)` test
rejects. -/
inductive DirectUrlInfo
  | vcsInfo (vcs : String) (commit_id : String)
  | nonVcs
deriving DecidableEq, Repr

/-- A pip `DirectUrl` provenance record: origin url plus its info. -/
structure DirectUrl where
  url : String
  info : DirectUrlInfo
deriving DecidableEq, Repr

/-- The slice of a pip `BaseDistribution` the module reads: the installed
version (of an abstract linearly ordered version type) and the optional
direct-url provenance. -/
structure BaseDistribution (α : Type) where
  version : α
  direct_url : Option DirectUrl
deriving DecidableEq, Repr

/-- Characters matched by the `[<>=]` class of the pin regex. -/
def isOpChar (c : Char) : Bool :=
  c == '<' || c == '>' || c == '='

/-- Characters matched by the `[0-9.]` class of the pin regex. -/
def isVerChar (c : Char) : Bool :=
  c.isDigit || c == '.'

/-- The inline regex parse of `require_package`:
`re.search` with an operator-run group and a digits-and-dots group, both
possibly empty, matches at position 0, so the two captured groups are the
leading maximal run of operator characters and the maximal run of digit or
dot characters immediately after it. -/
def parse_pin (pin_version : String) : String × String :=
  let g0 := pin_version.data.takeWhile isOpChar
  let rest := pin_version.data.dropWhile isOpChar
  let g1 := rest.takeWhile isVerChar
  (⟨g0⟩, ⟨g1⟩)

/-- The operator selection of `require_package`: the first captured group
when it is nonempty, the default `==` otherwise. -/
def pin_operator (pin_version : String) : String :=
  if (parse_pin pin_version).1 ≠ "" then (parse_pin pin_version).1 else "=="

/-- `get_git_package_hash` of the source: `NotVcsPackage` when there is no
direct-url or its info is not a `VcsInfo`; `NotGitPackage` when the vcs kind
is not git; otherwise `Found` with the commit id. -/
def get_git_package_hash {α : Type} (package : BaseDistribution α) :
    PipPackageStatus × Option String :=
  match package.direct_url with
  | none => (.NotVcsPackage, none)
  | some du =>
    match du.info with
    | .nonVcs => (.NotVcsPackage, none)
    | .vcsInfo vcs commit_id =>
      if vcs ≠ "git" then (.NotGitPackage, none)
      else (.Found, some commit_id)

/-- `_version_not_satisfy` of the source: reject operators outside the five
recognized ones with a `ValueError`, otherwise report whether the single
comparison selected by the operator fails. -/
def version_not_satisfy {α : Type} [LinearOrder α]
    (current_version target_version : α) (operator : String) :
    Except String Bool :=
  if operator ∉ (["==", ">=", "<=", ">", "<"] : List String) then
    Except.error ("Unknown operator '" ++ operator ++ "'")
  else
    Except.ok (
      (operator == "==" && ! decide (current_version = target_version)) ||
      (operator == ">=" && ! decide (current_version ≥ target_version)) ||
      (operator == "<=" && ! decide (current_version ≤ target_version)) ||
      (operator == ">"  && ! decide (current_version > target_version)) ||
      (operator == "<"  && ! decide (current_version < target_version)))

/-- The `__install` step of the source: run `pip install remote_string`; on
exit 0 return `UpToDate`; on nonzero exit raise `PipAutoInstallError` in
hard-error mode, else log and return `Failed`. The second component records
the one requirement string the subprocess was invoked with. -/
def installCmd (remote_string : String) (package_name : String)
    (warn_instead_of_error : Bool) (install_succeeds : Bool) :
    Except PyError PipPackageStatus × List String :=
  if install_succeeds then
    (Except.ok PipPackageStatus.UpToDate, [remote_string])
  else if !warn_instead_of_error then
    (Except.error (PyError.pipAutoInstallError
        ("Unable to auto install " ++ package_name)), [remote_string])
  else
    (Except.ok PipPackageStatus.Failed, [remote_string])

/-- `require_package` of the source. The pin is parsed first (raising
`ValueError` when its digits-and-dots group is empty, with the original pin
string in the message); a present package with no pin, or whose version
satisfies the pin, short-circuits to `UpToDate`; an absent package with
`only_update_existing` short-circuits to `NotFound`; every other path
delegates to the install step with the requirement string `name` or
`name ++ operator ++ pin`. -/
def require_package {α : Type} [LinearOrder α]
    (vparse : String → Except String α)
    (package_name : String) (pin_version : Option String)
    (only_update_existing : Bool) (warn_instead_of_error : Bool)
    (package : Option (BaseDistribution α)) (install_succeeds : Bool) :
    Except PyError PipPackageStatus × List String :=
  match pin_version with
  | none =>
    match package with
    | some _ => (Except.ok PipPackageStatus.UpToDate, [])
    | none =>
      if only_update_existing then (Except.ok PipPackageStatus.NotFound, [])
      else installCmd package_name package_name warn_instead_of_error install_succeeds
  | some pv =>
    let g := parse_pin pv
    let operator := pin_operator pv
    if g.2 = "" then
      (Except.error (PyError.valueError
          ("'" ++ pv ++ "' is not a valid version string")), [])
    else
      let install_str := package_name ++ operator ++ g.2
      match package with
      | some pkg =>
        match vparse g.2 with
        | Except.error m => (Except.error (PyError.valueError m), [])
        | Except.ok target =>
          match version_not_satisfy pkg.version target operator with
          | Except.error m => (Except.error (PyError.valueError m), [])
          | Except.ok not_sat =>
            if !not_sat then (Except.ok PipPackageStatus.UpToDate, [])
            else installCmd install_str package_name warn_instead_of_error install_succeeds
      | none =>
        if only_update_existing then (Except.ok PipPackageStatus.NotFound, [])
        else installCmd install_str package_name warn_instead_of_error install_succeeds

/-- The hostname normalization of `require_gitpackage`: strip trailing
slashes, then prepend `https://` unless an http or https scheme is already
present. -/
def normalize_hostname (repo_hostname : String) : String :=
  let stripped : String := ⟨(repo_hostname.data.reverse.dropWhile (fun c => c == '/')).reverse⟩
  if List.isPrefixOf "http://".data stripped.data
      || List.isPrefixOf "https://".data stripped.data then stripped
  else "https://" ++ stripped

/-- `require_gitpackage` of the source. Absent package: `NotFound` under
`only_update_existing`, else install. Present package: `Found` when no
commit pin; with a pin, `UpToDate` when the provenance commit equals the
pin, `NotVcsPackage` (or a raise in hard-error mode) when the provenance is
not a git VCS record, and otherwise install from
`git+<normalized hostname>/<repo_name>`. -/
def require_gitpackage {α : Type}
    (package_name : String) (repo_name : String) (pin_commit_id : Option String)
    (only_update_existing : Bool) (warn_instead_of_error : Bool)
    (repo_hostname : String)
    (package : Option (BaseDistribution α)) (install_succeeds : Bool) :
    Except PyError PipPackageStatus × List String :=
  match package with
  | none =>
    if only_update_existing then (Except.ok PipPackageStatus.NotFound, [])
    else
      installCmd ("git+" ++ normalize_hostname repo_hostname ++ "/" ++ repo_name)
        package_name warn_instead_of_error install_succeeds
  | some pkg =>
    match pin_commit_id with
    | none => (Except.ok PipPackageStatus.Found, [])
    | some pin =>
      let sr := get_git_package_hash pkg
      if sr.2 = some pin then (Except.ok PipPackageStatus.UpToDate, [])
      else if sr.1 = PipPackageStatus.NotVcsPackage ∨ sr.1 = PipPackageStatus.NotGitPackage then
        if !warn_instead_of_error then
          (Except.error (PyError.pipAutoInstallError
              ("Given package " ++ package_name ++ " is not a VCS package.")), [])
        else (Except.ok PipPackageStatus.NotVcsPackage, [])
      else
        installCmd ("git+" ++ normalize_hostname repo_hostname ++ "/" ++ repo_name)
          package_name warn_instead_of_error install_succeeds

end PipEnsureVersion

namespace PipEnsureVersion

deriving instance DecidableEq for Except

/-- The pin-satisfaction condition of `require_package` for a present
package: the captured version parses, and the check selected by the
captured operator (defaulting to `==`) reports no violation. -/
def pin_satisfied {α : Type} [LinearOrder α] (vparse : String → Except String α)
    (pkg : BaseDistribution α) (pv : String) : Prop :=
  ∃ target : α, vparse (parse_pin pv).2 = Except.ok target
    ∧ version_not_satisfy pkg.version target (pin_operator pv) = Except.ok false

/-- The provenance condition of `require_gitpackage` that triggers the
"not a VCS package" raise or warning: a present package, a requested commit
pin that the provenance commit does not equal, and a provenance status of
`NotVcsPackage` or `NotGitPackage`. -/
def nonVcsPinned {α : Type} (package : Option (BaseDistribution α))
    (pin_commit_id : Option String) : Prop :=
  ∃ pkg, package = some pkg ∧ ∃ pin, pin_commit_id = some pin
    ∧ (get_git_package_hash pkg).2 ≠ some pin
    ∧ ((get_git_package_hash pkg).1 = PipPackageStatus.NotVcsPackage
        ∨ (get_git_package_hash pkg).1 = PipPackageStatus.NotGitPackage)

/-! ### Helper lemmas about the pin parse -/

/-- A digit-or-dot character is never an operator character. -/
theorem not_opChar_of_verChar {c : Char} (h : isVerChar c = true) :
    isOpChar c = false := by
  by_contra hc
  rw [Bool.not_eq_false] at hc
  simp only [isOpChar, Bool.or_eq_true, beq_iff_eq] at hc
  rcases hc with (rfl | rfl) | rfl <;> revert h <;> decide

theorem takeWhile_append_all {p : Char → Bool} {l₁ l₂ : List Char}
    (h : ∀ x ∈ l₁, p x = true) :
    (l₁ ++ l₂).takeWhile p = l₁ ++ l₂.takeWhile p := by
  rw [List.takeWhile_append, List.takeWhile_eq_self_iff.mpr h]
  simp

theorem dropWhile_append_all {p : Char → Bool} {l₁ l₂ : List Char}
    (h : ∀ x ∈ l₁, p x = true) :
    (l₁ ++ l₂).dropWhile p = l₂.dropWhile p := by
  rw [List.dropWhile_append, List.dropWhile_eq_nil_iff.mpr h]
  simp

theorem dropWhile_eq_self_of_takeWhile_nil {p : Char → Bool} {l : List Char}
    (h : l.takeWhile p = []) : l.dropWhile p = l :=
  List.dropWhile_eq_self_iff.mpr (List.takeWhile_eq_nil_iff.mp h)

/-- Decomposition of the pin regex on a string made of an operator run, a
nonempty digits-and-dots run, and a remainder that does not begin with a
digit or dot: the two captured groups are exactly the first two parts. -/
theorem parse_pin_split (op ver rest : String)
    (hop : ∀ c ∈ op.data, isOpChar c = true)
    (hver : ∀ c ∈ ver.data, isVerChar c = true)
    (hne : ver.data ≠ [])
    (hrest : rest.data.takeWhile isVerChar = []) :
    parse_pin (op ++ ver ++ rest) = (op, ver) := by
  have hdata : (op ++ ver ++ rest).data = op.data ++ (ver.data ++ rest.data) := by
    simp [String.data_append]
  have hvr_take : (ver.data ++ rest.data).takeWhile isOpChar = [] := by
    cases hv : ver.data with
    | nil => exact absurd hv hne
    | cons a l =>
      have ha : isOpChar a = false :=
        not_opChar_of_verChar (hver a (by rw [hv]; exact List.mem_cons_self a l))
      simp [List.takeWhile, ha]
  have hvr_drop : (ver.data ++ rest.data).dropWhile isOpChar = ver.data ++ rest.data :=
    dropWhile_eq_self_of_takeWhile_nil hvr_take
  have hver_take : (ver.data ++ rest.data).takeWhile isVerChar = ver.data := by
    rw [takeWhile_append_all hver, hrest, List.append_nil]
  simp only [parse_pin, hdata]
  rw [takeWhile_append_all hop, hvr_take, List.append_nil, dropWhile_append_all hop,
    hvr_drop, hver_take]

/-- The same decomposition with no trailing remainder. -/
theorem parse_pin_split2 (op ver : String)
    (hop : ∀ c ∈ op.data, isOpChar c = true)
    (hver : ∀ c ∈ ver.data, isVerChar c = true)
    (hne : ver.data ≠ []) :
    parse_pin (op ++ ver) = (op, ver) := by
  have h := parse_pin_split op ver "" hop hver hne (by rfl)
  simpa using h

/-! ### Claims -/

/-- C5: for every pair of versions and each of the five recognized
operators, the satisfaction check (the negation of `_version_not_satisfy`)
holds exactly when the corresponding relational comparison holds; any
operator outside the five-element set yields a `ValueError`. -/
theorem version_not_satisfy_spec {α : Type} [LinearOrder α] (V T : α) :
    (version_not_satisfy V T "==" = Except.ok false ↔ V = T)
    ∧ (version_not_satisfy V T ">=" = Except.ok false ↔ V ≥ T)
    ∧ (version_not_satisfy V T "<=" = Except.ok false ↔ V ≤ T)
    ∧ (version_not_satisfy V T ">" = Except.ok false ↔ V > T)
    ∧ (version_not_satisfy V T "<" = Except.ok false ↔ V < T)
    ∧ ∀ op : String, op ∉ (["==", ">=", "<=", ">", "<"] : List String) →
        version_not_satisfy V T op = Except.error ("Unknown operator '" ++ op ++ "'") := by
  refine ⟨?_, ?_, ?_, ?_, ?_, fun op hop => ?_⟩
  · simp [version_not_satisfy]
  · simp [version_not_satisfy]
  · simp [version_not_satisfy]
  · simp [version_not_satisfy]
  · simp [version_not_satisfy]
  · simp [version_not_satisfy, hop]

/-- C7: a commit-pinned package whose git provenance commit equals the pin
is reported `UpToDate` and the installer is never invoked. -/
theorem git_commit_match_uptodate {α : Type}
    (package_name repo_name repo_hostname url pin : String)
    (oue warn ins : Bool) (pkg : BaseDistribution α)
    (h : pkg.direct_url = some ⟨url, DirectUrlInfo.vcsInfo "git" pin⟩) :
    require_gitpackage package_name repo_name (some pin) oue warn repo_hostname
      (some pkg) ins = (Except.ok PipPackageStatus.UpToDate, []) := by
  simp [require_gitpackage, get_git_package_hash, h]

theorem git_commit_match_uptodate_witness :
    require_gitpackage "foo" "org/foo" (some "abc123") false true "github.com"
      (some (⟨7, some ⟨"https://github.com/org/foo", DirectUrlInfo.vcsInfo "git" "abc123"⟩⟩ :
        BaseDistribution Nat)) true = (Except.ok PipPackageStatus.UpToDate, []) :=
  git_commit_match_uptodate "foo" "org/foo" "github.com"
    "https://github.com/org/foo" "abc123" false true true _ rfl

/-- C10: no execution of `require_package` or `require_gitpackage` ever
returns the status `OutDated`, although the enumeration defines it. -/
theorem outdated_never_returned {α : Type} [LinearOrder α]
    (vparse : String → Except String α)
    (package_name repo_name repo_hostname : String)
    (pin_version pin_commit_id : Option String)
    (oue warn ins : Bool) (package : Option (BaseDistribution α)) :
    (require_package vparse package_name pin_version oue warn package ins).1
        ≠ Except.ok PipPackageStatus.OutDated
    ∧ (require_gitpackage package_name repo_name pin_commit_id oue warn repo_hostname
        package ins).1 ≠ Except.ok PipPackageStatus.OutDated := by
  constructor
  · cases pin_version <;> cases package <;>
      simp only [require_package, installCmd] <;>
      (repeat' split) <;> simp_all
  · cases package <;> cases pin_commit_id <;>
      simp only [require_gitpackage, installCmd] <;>
      (repeat' split) <;> simp_all

end PipEnsureVersion

namespace PipEnsureVersion

/-- The install step always records exactly one subprocess invocation, with
the requirement string it was given. -/
theorem installCmd_trace (remote_string package_name : String) (warn ins : Bool) :
    (installCmd remote_string package_name warn ins).2 = [remote_string] := by
  unfold installCmd
  (repeat' split) <;> rfl

/-- C2 (counterexample): a present package with mercurial (non-git VCS)
provenance and a mismatched commit pin has provenance status
`NotGitPackage`, yet in soft mode the call returns `NotVcsPackage`, not the
provenance status `NotGitPackage` the claim promises. -/
theorem notgit_returns_notvcs_cex :
    require_gitpackage "foo" "org/foo" (some "abc") false true "github.com"
      (some (⟨1, some ⟨"https://example.com/r", DirectUrlInfo.vcsInfo "hg" "def"⟩⟩ :
        BaseDistribution Nat)) true
      = (Except.ok PipPackageStatus.NotVcsPackage, [])
    ∧ (get_git_package_hash (⟨1, some ⟨"https://example.com/r",
        DirectUrlInfo.vcsInfo "hg" "def"⟩⟩ : BaseDistribution Nat)).1
      = PipPackageStatus.NotGitPackage
    ∧ PipPackageStatus.NotVcsPackage ≠ PipPackageStatus.NotGitPackage :=
  ⟨rfl, rfl, by decide⟩

/-- C2 (amended): with a present package, a requested commit pin not equal
to the provenance commit, and provenance status `NotVcsPackage` or
`NotGitPackage`, hard-error mode raises `PipAutoInstallError` and soft mode
returns `PipPackageStatus.NotVcsPackage` (for both provenance statuses),
with no installer invocation. -/
theorem commit_mismatch_nonvcs_provenance {α : Type}
    (package_name repo_name repo_hostname pin : String)
    (oue ins : Bool) (pkg : BaseDistribution α)
    (hstat : (get_git_package_hash pkg).1 = PipPackageStatus.NotVcsPackage
      ∨ (get_git_package_hash pkg).1 = PipPackageStatus.NotGitPackage)
    (hne : (get_git_package_hash pkg).2 ≠ some pin) :
    require_gitpackage package_name repo_name (some pin) oue false repo_hostname
        (some pkg) ins
      = (Except.error (PyError.pipAutoInstallError
          ("Given package " ++ package_name ++ " is not a VCS package.")), [])
    ∧ require_gitpackage package_name repo_name (some pin) oue true repo_hostname
        (some pkg) ins
      = (Except.ok PipPackageStatus.NotVcsPackage, []) := by
  constructor <;> simp [require_gitpackage, hne, hstat]

theorem commit_mismatch_nonvcs_provenance_witness :
    require_gitpackage "foo" "org/foo" (some "abc") false false "github.com"
      (some (⟨1, none⟩ : BaseDistribution Nat)) true
      = (Except.error (PyError.pipAutoInstallError
          "Given package foo is not a VCS package."), [])
    ∧ require_gitpackage "foo" "org/foo" (some "abc") false true "github.com"
      (some (⟨1, none⟩ : BaseDistribution Nat)) true
      = (Except.ok PipPackageStatus.NotVcsPackage, []) :=
  commit_mismatch_nonvcs_provenance "foo" "org/foo" "github.com" "abc" false true
    ⟨1, none⟩ (Or.inl rfl) (by decide)

/-- C3 (counterexample): the pin string "." contains no version digits
after stripping the operator run, yet with the package absent
`require_package` raises no error at all and instead invokes the installer
with requirement string "foo==.". -/
theorem pin_without_digits_no_error_cex :
    require_package (fun s => Except.ok s.length) "foo" (some ".") false true none true
      = (Except.ok PipPackageStatus.UpToDate, ["foo==."]) := rfl

/-- C3 (amended): whenever the digits-and-dots group captured after the
operator run is empty (the remainder starts with neither a digit nor a
dot), `require_package` raises a `ValueError` immediately, regardless of
the installed package and of `only_update_existing` and
`warn_instead_of_error`, and the installer is not invoked. -/
theorem invalid_pin_raises_valueerror {α : Type} [LinearOrder α]
    (vparse : String → Except String α) (package_name pv : String)
    (oue warn ins : Bool) (package : Option (BaseDistribution α))
    (h : (parse_pin pv).2 = "") :
    require_package vparse package_name (some pv) oue warn package ins
      = (Except.error (PyError.valueError
          ("'" ++ pv ++ "' is not a valid version string")), []) := by
  simp [require_package, h]

theorem invalid_pin_raises_valueerror_witness :
    require_package (fun s => Except.ok s.length) "foo" (some ">=abc") false true
      (some (⟨3, none⟩ : BaseDistribution Nat)) true
      = (Except.error (PyError.valueError "'>=abc' is not a valid version string"), []) :=
  invalid_pin_raises_valueerror (fun s => Except.ok s.length) "foo" ">=abc" false true true
    (some ⟨3, none⟩) (by decide)

/-- C9: only the leading operator run and the following digits-and-dots run
of a pin are used; any trailing characters are silently discarded, so the
whole call (status, error behavior and install requirement strings alike)
is identical to the call with the truncated pin. -/
theorem trailing_pin_chars_discarded {α : Type} [LinearOrder α]
    (vparse : String → Except String α) (package_name op ver rest : String)
    (oue warn ins : Bool) (package : Option (BaseDistribution α))
    (hop : ∀ c ∈ op.data, isOpChar c = true)
    (hver : ∀ c ∈ ver.data, isVerChar c = true) (hne : ver.data ≠ [])
    (hrest : rest.data.takeWhile isVerChar = []) :
    parse_pin (op ++ ver ++ rest) = (op, ver)
    ∧ require_package vparse package_name (some (op ++ ver ++ rest)) oue warn package ins
      = require_package vparse package_name (some (op ++ ver)) oue warn package ins := by
  have h1 := parse_pin_split op ver rest hop hver hne hrest
  have h2 := parse_pin_split2 op ver hop hver hne
  have hne' : ver ≠ "" := fun h => hne (by rw [h])
  refine ⟨h1, ?_⟩
  simp [require_package, pin_operator, h1, h2, hne']

theorem trailing_pin_chars_discarded_witness :
    parse_pin (">=" ++ "1.2.3" ++ "rc1") = (">=", "1.2.3")
    ∧ require_package (fun s => Except.ok s.length) "foo"
        (some (">=" ++ "1.2.3" ++ "rc1")) false true
        (some (⟨1, none⟩ : BaseDistribution Nat)) true
      = require_package (fun s => Except.ok s.length) "foo" (some (">=" ++ "1.2.3"))
        false true (some (⟨1, none⟩ : BaseDistribution Nat)) true :=
  trailing_pin_chars_discarded (fun s => Except.ok s.length) "foo" ">=" "1.2.3" "rc1"
    false true true (some ⟨1, none⟩) (by decide) (by decide) (by decide) (by decide)

end PipEnsureVersion

namespace PipEnsureVersion

/-- C6: with a pin of the form operator-then-version whose parsed spec the
installed version fails to satisfy, `require_package` delegates to the
installer exactly once with the requirement string
`name ++ operator ++ version`; with no installed package and no pin, the
requirement string is the bare package name. -/
theorem install_requirement_string_spec {α : Type} [LinearOrder α]
    (vparse : String → Except String α) (package_name op ver : String) (target : α)
    (pkg : BaseDistribution α) (oue warn ins : Bool)
    (hop : op ∈ (["==", ">=", "<=", ">", "<"] : List String))
    (hver : ∀ c ∈ ver.data, isVerChar c = true) (hne : ver.data ≠ [])
    (hparse : vparse ver = Except.ok target)
    (hns : version_not_satisfy pkg.version target op = Except.ok true) :
    require_package vparse package_name (some (op ++ ver)) oue warn (some pkg) ins
      = installCmd (package_name ++ op ++ ver) package_name warn ins
    ∧ (require_package vparse package_name (some (op ++ ver)) oue warn (some pkg) ins).2
      = [package_name ++ op ++ ver]
    ∧ require_package vparse package_name none false warn none ins
      = installCmd package_name package_name warn ins
    ∧ (require_package vparse package_name none false warn none ins).2 = [package_name] := by
  have hopc : ∀ c ∈ op.data, isOpChar c = true := by
    fin_cases hop <;> decide
  have hopne : op ≠ "" := by
    fin_cases hop <;> decide
  have hpp : parse_pin (op ++ ver) = (op, ver) := parse_pin_split2 op ver hopc hver hne
  have hone : pin_operator (op ++ ver) = op := by
    simp [pin_operator, hpp, hopne]
  have hne' : ver ≠ "" := fun h => hne (by rw [h])
  have h1 : require_package vparse package_name (some (op ++ ver)) oue warn (some pkg) ins
      = installCmd (package_name ++ op ++ ver) package_name warn ins := by
    simp [require_package, hpp, hone, hne', hparse, hns]
  have h3 : require_package vparse package_name none false warn none ins
      = installCmd package_name package_name warn ins := rfl
  exact ⟨h1, by rw [h1, installCmd_trace], h3, by rw [h3, installCmd_trace]⟩

theorem install_requirement_string_spec_witness :
    require_package (fun s => Except.ok s.length) "foo" (some ">=2.0") false true
      (some (⟨1, none⟩ : BaseDistribution Nat)) true
      = installCmd "foo>=2.0" "foo" true true
    ∧ (require_package (fun s => Except.ok s.length) "foo" (some ">=2.0") false true
      (some (⟨1, none⟩ : BaseDistribution Nat)) true).2 = ["foo>=2.0"]
    ∧ require_package (fun s => Except.ok s.length) "foo" none false true none true
      = installCmd "foo" "foo" true true
    ∧ (require_package (fun s => Except.ok s.length) "foo" none false true none true).2
      = ["foo"] :=
  install_requirement_string_spec (fun s => Except.ok s.length) "foo" ">=" "2.0" 3
    ⟨1, none⟩ false true true (by decide) (by decide) (by decide) rfl (by decide)

end PipEnsureVersion

namespace PipEnsureVersion

/-- C1 (counterexample): a call on which the lookup found no installed
package (package argument `none`) still returns `UpToDate` when the install
subprocess succeeds, because the install step itself returns `UpToDate`. -/
theorem absent_package_uptodate_cex :
    require_package (fun s => Except.ok s.length) "foo" none false true none true
      = (Except.ok PipPackageStatus.UpToDate, ["foo"]) := rfl

/-- The install step reports `UpToDate` exactly when the subprocess exited
successfully, in both policy modes. -/
theorem installCmd_uptodate_iff (remote_string package_name : String)
    (warn ins : Bool) :
    (installCmd remote_string package_name warn ins).1
        = Except.ok PipPackageStatus.UpToDate ↔ ins = true := by
  unfold installCmd
  cases ins <;> cases warn <;> simp

/-- C1 (amended): `UpToDate` is returned only when an installed package was
found and (no pin was requested, or the installed version/commit satisfies
the pin), or else when the call reached the install step (the install
subprocess was invoked, so the recorded trace is nonempty) and that
subprocess exited successfully. -/
theorem uptodate_only_when_satisfied_or_installed {α : Type} [LinearOrder α]
    (vparse : String → Except String α)
    (package_name repo_name repo_hostname : String)
    (pin_version pin_commit_id : Option String) (oue warn ins : Bool)
    (package : Option (BaseDistribution α)) :
    ((require_package vparse package_name pin_version oue warn package ins).1
        = Except.ok PipPackageStatus.UpToDate →
      (∃ pkg, package = some pkg ∧ (pin_version = none
          ∨ ∃ pv, pin_version = some pv ∧ pin_satisfied vparse pkg pv))
        ∨ (ins = true
            ∧ (require_package vparse package_name pin_version oue warn package ins).2 ≠ []))
    ∧ ((require_gitpackage package_name repo_name pin_commit_id oue warn repo_hostname
          package ins).1 = Except.ok PipPackageStatus.UpToDate →
      (∃ pkg, package = some pkg ∧ ∃ pin, pin_commit_id = some pin
          ∧ (get_git_package_hash pkg).2 = some pin)
        ∨ (ins = true
            ∧ (require_gitpackage package_name repo_name pin_commit_id oue warn repo_hostname
                package ins).2 ≠ [])) := by
  constructor
  · intro h
    cases pin_version with
    | none =>
      cases package with
      | some pkg => exact Or.inl ⟨pkg, rfl, Or.inl rfl⟩
      | none =>
        cases oue with
        | true => exact absurd h (by simp [require_package])
        | false =>
          refine Or.inr ⟨?_, ?_⟩
          · simp [require_package] at h
            rw [installCmd_uptodate_iff] at h
            exact h
          · simp [require_package, installCmd_trace]
    | some pv =>
      by_cases hg : (parse_pin pv).2 = ""
      · exact absurd h (by simp [require_package, hg])
      · cases package with
        | none =>
          cases oue with
          | true => exact absurd h (by simp [require_package, hg])
          | false =>
            refine Or.inr ⟨?_, ?_⟩
            · simp [require_package, hg] at h
              rw [installCmd_uptodate_iff] at h
              exact h
            · simp [require_package, installCmd_trace, hg]
        | some pkg =>
          cases hv : vparse (parse_pin pv).2 with
          | error m => exact absurd h (by simp [require_package, hg, hv])
          | ok target =>
            cases hns : version_not_satisfy pkg.version target (pin_operator pv) with
            | error m => exact absurd h (by simp [require_package, hg, hv, hns])
            | ok not_sat =>
              cases not_sat with
              | false => exact Or.inl ⟨pkg, rfl, Or.inr ⟨pv, rfl, target, hv, hns⟩⟩
              | true =>
                refine Or.inr ⟨?_, ?_⟩
                · simp [require_package, hg, hv, hns] at h
                  rw [installCmd_uptodate_iff] at h
                  exact h
                · simp [require_package, installCmd_trace, hg, hv, hns]
  · intro h
    cases package with
    | none =>
      cases oue with
      | true => exact absurd h (by simp [require_gitpackage])
      | false =>
        refine Or.inr ⟨?_, ?_⟩
        · simp [require_gitpackage] at h
          rw [installCmd_uptodate_iff] at h
          exact h
        · simp [require_gitpackage, installCmd_trace]
    | some pkg =>
      cases pin_commit_id with
      | none => exact absurd h (by simp [require_gitpackage])
      | some pin =>
        by_cases hc : (get_git_package_hash pkg).2 = some pin
        · exact Or.inl ⟨pkg, rfl, pin, rfl, hc⟩
        · by_cases hs : (get_git_package_hash pkg).1 = PipPackageStatus.NotVcsPackage
              ∨ (get_git_package_hash pkg).1 = PipPackageStatus.NotGitPackage
          · cases warn with
            | true => exact absurd h (by simp [require_gitpackage, hc, hs])
            | false => exact absurd h (by simp [require_gitpackage, hc, hs])
          · refine Or.inr ⟨?_, ?_⟩
            · simp [require_gitpackage, hc, hs] at h
              rw [installCmd_uptodate_iff] at h
              exact h
            · simp [require_gitpackage, installCmd_trace, hc, hs]

end PipEnsureVersion

namespace PipEnsureVersion

/-- C8 (counterexample): with no installed package and
`only_update_existing` set, a pin string with an empty captured version
group makes `require_package` raise `ValueError` instead of returning
`NotFound`, so the claimed "if and only if" fails in the if direction. -/
theorem notfound_invalid_pin_cex :
    require_package (fun s => Except.ok s.length) "foo" (some "abc") true true none true
      = (Except.error (PyError.valueError "'abc' is not a valid version string"), [])
    ∧ (Except.error (PyError.valueError "'abc' is not a valid version string")
        : Except PyError PipPackageStatus) ≠ Except.ok PipPackageStatus.NotFound :=
  ⟨rfl, by decide⟩

/-- C8 (amended): `NotFound` is returned only when the lookup found no
installed package and `only_update_existing` is true, and then with no
installer call; conversely, under those two conditions the call returns
`NotFound` — unconditionally for `require_gitpackage`, and for
`require_package` provided the pin is absent or its captured version group
is nonempty (otherwise the pin `ValueError` preempts the `NotFound`
return). -/
theorem notfound_characterization {α : Type} [LinearOrder α]
    (vparse : String → Except String α)
    (package_name repo_name repo_hostname : String)
    (pin_version pin_commit_id : Option String) (oue warn ins : Bool)
    (package : Option (BaseDistribution α)) :
    ((require_package vparse package_name pin_version oue warn package ins).1
        = Except.ok PipPackageStatus.NotFound →
      package = none ∧ oue = true
        ∧ (require_package vparse package_name pin_version oue warn package ins).2 = [])
    ∧ ((require_gitpackage package_name repo_name pin_commit_id oue warn repo_hostname
          package ins).1 = Except.ok PipPackageStatus.NotFound →
      package = none ∧ oue = true
        ∧ (require_gitpackage package_name repo_name pin_commit_id oue warn repo_hostname
            package ins).2 = [])
    ∧ (package = none → oue = true →
        (pin_version = none ∨ ∃ pv, pin_version = some pv ∧ (parse_pin pv).2 ≠ "") →
        require_package vparse package_name pin_version oue warn package ins
          = (Except.ok PipPackageStatus.NotFound, []))
    ∧ (package = none → oue = true →
        require_gitpackage package_name repo_name pin_commit_id oue warn repo_hostname
          package ins = (Except.ok PipPackageStatus.NotFound, [])) := by
  refine ⟨?_, ?_, ?_, ?_⟩
  · intro h
    cases pin_version <;> cases package <;> cases warn <;>
      simp only [require_package, installCmd] at h ⊢ <;>
      (repeat' split at h) <;> simp_all
  · intro h
    cases pin_commit_id <;> cases package <;> cases warn <;>
      simp only [require_gitpackage, installCmd] at h ⊢ <;>
      (repeat' split at h) <;> simp_all
  · rintro rfl rfl (rfl | ⟨pv, rfl, hg⟩)
    · rfl
    · simp [require_package, hg]
  · rintro rfl rfl
    rfl

end PipEnsureVersion

namespace PipEnsureVersion

/-- The install step yields an error exactly when the subprocess fails in
hard-error mode, and then the error is the `PipAutoInstallError` naming the
package. -/
theorem installCmd_error_iff (remote_string package_name : String)
    (warn ins : Bool) (e : PyError) :
    (installCmd remote_string package_name warn ins).1 = Except.error e ↔
      ins = false ∧ warn = false
        ∧ e = PyError.pipAutoInstallError ("Unable to auto install " ++ package_name) := by
  unfold installCmd
  cases ins <;> cases warn <;> simp
  exact eq_comm

/-- C4: `PipAutoInstallError` is raised only in hard-error mode, from a
failed install subprocess (`require_package`), or from a failed install or
a commit-pinned non-VCS/non-git provenance (`require_gitpackage`); in soft
mode the same conditions return `Failed` (install failure) or
`NotVcsPackage` (provenance case) without raising. -/
theorem auto_install_error_policy {α : Type} [LinearOrder α]
    (vparse : String → Except String α)
    (package_name repo_name repo_hostname : String)
    (pin_version pin_commit_id : Option String) (oue warn ins : Bool)
    (package : Option (BaseDistribution α)) :
    (∀ msg, (require_package vparse package_name pin_version oue warn package ins).1
        = Except.error (PyError.pipAutoInstallError msg) →
      warn = false ∧ ins = false)
    ∧ (∀ msg, (require_gitpackage package_name repo_name pin_commit_id oue warn
          repo_hostname package ins).1 = Except.error (PyError.pipAutoInstallError msg) →
      warn = false ∧ (ins = false ∨ nonVcsPinned package pin_commit_id))
    ∧ (warn = true → ∀ msg,
        (require_package vparse package_name pin_version oue warn package ins).1
          ≠ Except.error (PyError.pipAutoInstallError msg))
    ∧ (warn = true → ∀ msg,
        (require_gitpackage package_name repo_name pin_commit_id oue warn repo_hostname
          package ins).1 ≠ Except.error (PyError.pipAutoInstallError msg))
    ∧ (warn = true → ins = false →
        (require_package vparse package_name pin_version oue warn package ins).2 ≠ [] →
        (require_package vparse package_name pin_version oue warn package ins).1
          = Except.ok PipPackageStatus.Failed)
    ∧ (warn = true → ins = false →
        (require_gitpackage package_name repo_name pin_commit_id oue warn repo_hostname
          package ins).2 ≠ [] →
        (require_gitpackage package_name repo_name pin_commit_id oue warn repo_hostname
          package ins).1 = Except.ok PipPackageStatus.Failed)
    ∧ (warn = true → nonVcsPinned package pin_commit_id →
        require_gitpackage package_name repo_name pin_commit_id oue warn repo_hostname
          package ins = (Except.ok PipPackageStatus.NotVcsPackage, [])) := by
  have hrp : ∀ msg,
      (require_package vparse package_name pin_version oue warn package ins).1
        = Except.error (PyError.pipAutoInstallError msg) →
      warn = false ∧ ins = false := by
    intro msg h
    cases pin_version with
    | none =>
      cases package with
      | some _ => exact absurd h (by simp [require_package])
      | none =>
        cases oue with
        | true => exact absurd h (by simp [require_package])
        | false =>
          simp [require_package] at h
          rw [installCmd_error_iff] at h
          exact ⟨h.2.1, h.1⟩
    | some pv =>
      by_cases hg : (parse_pin pv).2 = ""
      · exact absurd h (by simp [require_package, hg])
      · cases package with
        | none =>
          cases oue with
          | true => exact absurd h (by simp [require_package, hg])
          | false =>
            simp [require_package, hg] at h
            rw [installCmd_error_iff] at h
            exact ⟨h.2.1, h.1⟩
        | some pkg =>
          cases hv : vparse (parse_pin pv).2 with
          | error m => exact absurd h (by simp [require_package, hg, hv])
          | ok target =>
            cases hns : version_not_satisfy pkg.version target (pin_operator pv) with
            | error m => exact absurd h (by simp [require_package, hg, hv, hns])
            | ok not_sat =>
              cases not_sat with
              | false => exact absurd h (by simp [require_package, hg, hv, hns])
              | true =>
                have h' : (installCmd (package_name ++ pin_operator pv ++ (parse_pin pv).2)
                    package_name warn ins).1
                    = Except.error (PyError.pipAutoInstallError msg) := by
                  rw [← h]
                  simp [require_package, hg, hv, hns]
                rw [installCmd_error_iff] at h'
                exact ⟨h'.2.1, h'.1⟩
  have hrg : ∀ msg,
      (require_gitpackage package_name repo_name pin_commit_id oue warn repo_hostname
        package ins).1 = Except.error (PyError.pipAutoInstallError msg) →
      warn = false ∧ (ins = false ∨ nonVcsPinned package pin_commit_id) := by
    intro msg h
    cases package with
    | none =>
      cases oue with
      | true => exact absurd h (by simp [require_gitpackage])
      | false =>
        simp [require_gitpackage] at h
        rw [installCmd_error_iff] at h
        exact ⟨h.2.1, Or.inl h.1⟩
    | some pkg =>
      cases pin_commit_id with
      | none => exact absurd h (by simp [require_gitpackage])
      | some pin =>
        by_cases hc : (get_git_package_hash pkg).2 = some pin
        · exact absurd h (by simp [require_gitpackage, hc])
        · by_cases hs : (get_git_package_hash pkg).1 = PipPackageStatus.NotVcsPackage
              ∨ (get_git_package_hash pkg).1 = PipPackageStatus.NotGitPackage
          · cases warn with
            | true => exact absurd h (by simp [require_gitpackage, hc, hs])
            | false => exact ⟨rfl, Or.inr ⟨pkg, rfl, pin, rfl, hc, hs⟩⟩
          · have h' : (installCmd ("git+" ++ normalize_hostname repo_hostname ++ "/"
                ++ repo_name) package_name warn ins).1
                = Except.error (PyError.pipAutoInstallError msg) := by
              rw [← h]
              simp [require_gitpackage, hc, hs]
            rw [installCmd_error_iff] at h'
            exact ⟨h'.2.1, Or.inl h'.1⟩
  refine ⟨hrp, hrg, ?_, ?_, ?_, ?_, ?_⟩
  · rintro rfl msg h
    exact absurd (hrp msg h).1 (by decide)
  · rintro rfl msg h
    exact absurd (hrg msg h).1 (by decide)
  · rintro rfl rfl htr
    cases pin_version with
    | none =>
      cases package with
      | some _ => exact absurd rfl htr
      | none =>
        cases oue with
        | true => exact absurd rfl htr
        | false => rfl
    | some pv =>
      by_cases hg : (parse_pin pv).2 = ""
      · exact absurd (by simp [require_package, hg]) htr
      · cases package with
        | none =>
          cases oue with
          | true => exact absurd (by simp [require_package, hg]) htr
          | false => simp [require_package, installCmd, hg]
        | some pkg =>
          cases hv : vparse (parse_pin pv).2 with
          | error m => exact absurd (by simp [require_package, hg, hv]) htr
          | ok target =>
            cases hns : version_not_satisfy pkg.version target (pin_operator pv) with
            | error m => exact absurd (by simp [require_package, hg, hv, hns]) htr
            | ok not_sat =>
              cases not_sat with
              | false => exact absurd (by simp [require_package, hg, hv, hns]) htr
              | true => simp [require_package, installCmd, hg, hv, hns]
  · rintro rfl rfl htr
    cases package with
    | none =>
      cases oue with
      | true => exact absurd rfl htr
      | false => rfl
    | some pkg =>
      cases pin_commit_id with
      | none => exact absurd rfl htr
      | some pin =>
        by_cases hc : (get_git_package_hash pkg).2 = some pin
        · exact absurd (by simp [require_gitpackage, hc]) htr
        · by_cases hs : (get_git_package_hash pkg).1 = PipPackageStatus.NotVcsPackage
              ∨ (get_git_package_hash pkg).1 = PipPackageStatus.NotGitPackage
          · exact absurd (by simp [require_gitpackage, hc, hs]) htr
          · simp [require_gitpackage, installCmd, hc, hs]
  · rintro rfl ⟨pkg, rfl, pin, rfl, hne, hstat⟩
    simp [require_gitpackage, hne, hstat]

end PipEnsureVersion
